import Mathlib

/-!
Verification of the socket.io chat coordinator (server/index.js) of the
real-time-communication repository.

The server keeps three mutable in-memory tables:
  users    : socketId -> { username, room, lastSeen }
  messages : list of message records, appended in arrival order
  rooms    : list of room names, initialised to ["global"]

Each socket event handler (join, joinRoom, sendMessage, typing, react,
readMessage, disconnect) and the GET /messages pagination endpoint are
embedded below as pure functions over an explicit state, returning the
new state, the acknowledgment sent to the caller via the callback, and
the list of emitted events with their targets (a socket-id target models
io.to(socket.id) / socket.emit, a room target models io.to(room)).

Machine details of JavaScript that matter are modelled explicitly:
  - `x || null` turns the empty string into null (jsOrNull);
  - strict equality between a null field and an undefined query
    parameter, or between null and a string, is false (jsStrEqOpt);
  - Array.prototype.slice with a negative end counts from the end of
    the array (jsSlice);
  - object property assignment replaces the value in place, delete
    removes the key (jsSet / jsDel);
  - accessing .username on users[socket.id] when no entry exists throws
    a TypeError; the react handler does this unguarded, so it is
    embedded in Except with `.error ()` standing for the thrown
    exception.
-/

/-- A user session, the value stored in the `users` table
(`users[socket.id] = { username, room, lastSeen }`); `lastSeen` plays no
role in any handler's logic and is omitted. -/
structure Session where
  username : String
  room : String
deriving DecidableEq, Repr

/-- One entry of a message's `reactions` array. -/
structure Reaction where
  user : String
  reaction : String
deriving DecidableEq, Repr

/-- A message record, as built in the sendMessage handler.  The uuid is
modelled as an opaque natural number. -/
structure Message where
  id : Nat
  text : String
  file : Option String
  sender : String
  timestamp : Nat
  room : String
  isPrivate : Bool
  toUser : Option String
  reactions : List Reaction
  readBy : List String
  deliveredTo : List Nat
deriving DecidableEq, Repr

/-- The three shared mutable tables of the server process. -/
structure ServerState where
  users : List (Nat × Session)
  messages : List Message
  rooms : List String
deriving DecidableEq, Repr

/-- `users[socket.id]`: property lookup in a JavaScript object modelled
as an association list with unique keys. -/
def jsGet {α : Type} : List (Nat × α) → Nat → Option α
  | [], _ => none
  | p :: ps, k => if p.1 = k then some p.2 else jsGet ps k

/-- `users[socket.id] = v`: replace the value in place when the key is
present, otherwise append the new key. -/
def jsSet {α : Type} : List (Nat × α) → Nat → α → List (Nat × α)
  | [], k, v => [(k, v)]
  | p :: ps, k, v => if p.1 = k then (k, v) :: ps else p :: jsSet ps k v

/-- `delete users[socket.id]`: remove the key. -/
def jsDel {α : Type} : List (Nat × α) → Nat → List (Nat × α)
  | [], _ => []
  | p :: ps, k => if p.1 = k then ps else p :: jsDel ps k

/-- `x || null` on an optional string field: JavaScript treats the empty
string as falsy, so it collapses to null. -/
def jsOrNull (x : Option String) : Option String :=
  match x with
  | some s => if s = "" then none else some s
  | none => none

/-- Acknowledgment payload passed to the event's callback. -/
inductive Ack where
  | ok
  | delivered (id : Nat)
  | error (msg : String)
deriving DecidableEq, Repr

/-- Payload of an outbound socket.io event. -/
inductive Event where
  | onlineUsers (l : List Session)
  | notification (s : String)
  | receiveMessage (m : Message)
  | privateMessage (m : Message)
  | typingEv (username : String) (isTyping : Bool) (isPrivate : Bool)
  | reactionUpdate (m : Message)
  | readUpdate (m : Message)
deriving DecidableEq, Repr

/-- An outbound delivery: `io.to(room)` targets every socket joined to
the room, `io.to(sid)` / `socket.emit` targets one socket, and
`socket.to(room)` targets the room minus the sending socket. -/
inductive Emit where
  | toRoom (room : String) (ev : Event)
  | toSocket (sid : Nat) (ev : Event)
  | toRoomExceptSelf (room : String) (sender : Nat) (ev : Event)
deriving DecidableEq, Repr

/-- `onlineUsersInRoom`: Object.values(users).filter(u => u.room === room). -/
def onlineUsersInRoom (st : ServerState) (room : String) : List Session :=
  (st.users.map Prod.snd).filter (fun u => u.room == room)

/-- The `join` handler.  `if (!username)` rejects exactly the falsy
usernames, i.e. the empty string; whitespace-only usernames pass. -/
def joinHandler (st : ServerState) (sid : Nat) (username room : String) :
    ServerState × Ack × List Emit :=
  if username = "" then (st, Ack.error "Username required", [])
  else
    let users := jsSet st.users sid ⟨username, room⟩
    let rooms := if st.rooms.contains room then st.rooms else st.rooms ++ [room]
    let st2 : ServerState := { st with users := users, rooms := rooms }
    (st2, Ack.ok,
      [Emit.toRoom room (Event.onlineUsers (onlineUsersInRoom st2 room)),
       Emit.toRoom room (Event.notification (username ++ " joined " ++ room))])

/-- The `joinRoom` handler.  In the source, `u.room = room` mutates the
session before the first `io.to(u.room)` emit, so both onlineUsers
presence emits target the new room; nothing is sent to the old room.
The `rooms` table is not updated. -/
def joinRoomHandler (st : ServerState) (sid : Nat) (room : String) :
    ServerState × Ack × List Emit :=
  match jsGet st.users sid with
  | none => (st, Ack.error "Not joined", [])
  | some u =>
    let u2 : Session := { u with room := room }
    let st2 : ServerState := { st with users := jsSet st.users sid u2 }
    (st2, Ack.ok,
      [Emit.toRoom u2.room (Event.onlineUsers (onlineUsersInRoom st2 u2.room)),
       Emit.toRoom room (Event.onlineUsers (onlineUsersInRoom st2 room)),
       Emit.toRoom room (Event.notification (u.username ++ " joined " ++ room))])

/-- The `sendMessage` handler.  `newId` models the fresh uuid and `ts`
the current time.  Private delivery (`msg.isPrivate && msg.toUser`) emits to
every socket whose session's username equals the recipient, then back to
the sending socket only; otherwise the message is broadcast to the
sender's room. -/
def sendMessageHandler (st : ServerState) (sid : Nat)
    (text? file? : Option String) (isPrivate : Bool) (to? : Option String)
    (newId ts : Nat) : ServerState × Ack × List Emit :=
  match jsGet st.users sid with
  | none => (st, Ack.error "Not joined", [])
  | some user =>
    let msg : Message :=
      { id := newId
        text := text?.getD ""
        file := jsOrNull file?
        sender := user.username
        timestamp := ts
        room := user.room
        isPrivate := isPrivate
        toUser := jsOrNull to?
        reactions := []
        readBy := []
        deliveredTo := [] }
    let st2 : ServerState := { st with messages := st.messages ++ [msg] }
    let emits : List Emit :=
      match msg.isPrivate, msg.toUser with
      | true, some t =>
        (st.users.filter (fun p => p.2.username == t)).map
          (fun p => Emit.toSocket p.1 (Event.privateMessage msg))
          ++ [Emit.toSocket sid (Event.privateMessage msg)]
      | _, _ => [Emit.toRoom msg.room (Event.receiveMessage msg)]
    (st2, Ack.delivered msg.id, emits)

/-- The `typing` handler: no callback, no state change; silently returns
when the socket has no session. -/
def typingHandler (st : ServerState) (sid : Nat) (isTyping isPrivate : Bool)
    (to? : Option String) : List Emit :=
  match jsGet st.users sid with
  | none => []
  | some user =>
    match isPrivate, jsOrNull to? with
    | true, some t =>
      (st.users.filter (fun p => p.2.username == t)).map
        (fun p => Emit.toSocket p.1 (Event.typingEv user.username isTyping true))
    | _, _ =>
      [Emit.toRoomExceptSelf user.room sid (Event.typingEv user.username isTyping false)]

/-- Replace the first element satisfying `p` by its image under `f`,
modelling in-place mutation of the object returned by Array.find. -/
def updateFirst {α : Type} (p : α → Bool) (f : α → α) : List α → List α
  | [] => []
  | x :: xs => if p x then f x :: xs else x :: updateFirst p f xs

/-- The `react` handler.  When the message exists but the socket has no
session, `users[socket.id].username` throws a TypeError before any
mutation; this is the `.error ()` case. -/
def reactHandler (st : ServerState) (sid : Nat) (messageId : Nat)
    (reaction : String) : Except Unit (ServerState × Ack × List Emit) :=
  match st.messages.find? (fun m => m.id == messageId) with
  | none => Except.ok (st, Ack.error "Message not found", [])
  | some msg =>
    match jsGet st.users sid with
    | none => Except.error ()
    | some u =>
      let addR : Message → Message := fun m =>
        { m with reactions := m.reactions ++ [⟨u.username, reaction⟩] }
      let msg2 := addR msg
      let st2 : ServerState :=
        { st with messages := updateFirst (fun m => m.id == messageId) addR st.messages }
      let emits : List Emit :=
        match msg2.isPrivate, msg2.toUser with
        | true, some t =>
          (st.users.filter (fun p => p.2.username == t || p.2.username == msg2.sender)).map
            (fun p => Emit.toSocket p.1 (Event.reactionUpdate msg2))
        | _, _ => [Emit.toRoom msg2.room (Event.reactionUpdate msg2)]
      Except.ok (st2, Ack.ok, emits)

/-- The `readMessage` handler.  The username lookup uses optional
chaining, so an unjoined socket does not crash: the readBy update is
skipped, but the broadcast still happens and the callback still receives
an ok status. -/
def readMessageHandler (st : ServerState) (sid : Nat) (messageId : Nat) :
    ServerState × Ack × List Emit :=
  match st.messages.find? (fun m => m.id == messageId) with
  | none => (st, Ack.error "Message not found", [])
  | some msg =>
    let addRead : Message → Message := fun m =>
      match jsGet st.users sid with
      | some u =>
        if u.username = "" then m
        else if m.readBy.contains u.username then m
        else { m with readBy := m.readBy ++ [u.username] }
      | none => m
    let msg2 := addRead msg
    let st2 : ServerState :=
      { st with messages := updateFirst (fun m => m.id == messageId) addRead st.messages }
    let emits : List Emit :=
      match msg2.isPrivate, msg2.toUser with
      | true, some t =>
        (st.users.filter (fun p => p.2.username == t || p.2.username == msg2.sender)).map
          (fun p => Emit.toSocket p.1 (Event.readUpdate msg2))
      | _, _ => [Emit.toRoom msg2.room (Event.readUpdate msg2)]
    (st2, Ack.ok, emits)

/-- The `disconnect` handler: remove the session if present and notify
its last room; a socket with no session is a no-op. -/
def disconnectHandler (st : ServerState) (sid : Nat) : ServerState × List Emit :=
  match jsGet st.users sid with
  | none => (st, [])
  | some u =>
    let st2 : ServerState := { st with users := jsDel st.users sid }
    (st2,
      [Emit.toRoom u.room (Event.onlineUsers (onlineUsersInRoom st2 u.room)),
       Emit.toRoom u.room (Event.notification (u.username ++ " left " ++ u.room))])

/-- One inbound socket event, with the fresh uuid and timestamp of a
send made explicit. -/
inductive ServerOp where
  | join (sid : Nat) (username room : String)
  | joinRoom (sid : Nat) (room : String)
  | sendMessage (sid : Nat) (text? file? : Option String) (isPrivate : Bool)
      (to? : Option String) (newId ts : Nat)
  | typing (sid : Nat) (isTyping isPrivate : Bool) (to? : Option String)
  | react (sid : Nat) (messageId : Nat) (reaction : String)
  | readMessage (sid : Nat) (messageId : Nat)
  | disconnect (sid : Nat)
deriving DecidableEq, Repr

/-- State transition of one inbound event (a thrown exception leaves the
shared state as it was at the throw point). -/
def execServerOp (st : ServerState) (op : ServerOp) : ServerState :=
  match op with
  | ServerOp.join sid u r => (joinHandler st sid u r).1
  | ServerOp.joinRoom sid r => (joinRoomHandler st sid r).1
  | ServerOp.sendMessage sid t f p tgt i ts => (sendMessageHandler st sid t f p tgt i ts).1
  | ServerOp.typing _ _ _ _ => st
  | ServerOp.react sid mid r =>
    match reactHandler st sid mid r with
    | Except.ok (st2, _, _) => st2
    | Except.error _ => st
  | ServerOp.readMessage sid mid => (readMessageHandler st sid mid).1
  | ServerOp.disconnect sid => (disconnectHandler st sid).1

/-- Server start-up state: no users, no messages, the pre-existing
global room. -/
def initialState : ServerState := { users := [], messages := [], rooms := ["global"] }

/-- Run a trace of inbound events from start-up. -/
def execOps (ops : List ServerOp) : ServerState := ops.foldl execServerOp initialState

/-- Strict equality between a nullable string field (left) and an
optional query parameter (right): null === undefined, null === s and
s === undefined are all false in JavaScript. -/
def jsStrEqOpt (a b : Option String) : Bool :=
  match a, b with
  | some x, some y => x == y
  | _, _ => false

/-- Strict equality between a string and an optional query parameter. -/
def jsStrEqSO (s : String) (b : Option String) : Bool :=
  match b with
  | some y => s == y
  | none => false

/-- The filter of GET /messages: the private branch requires a truthy
`peer` and matches on the (sender, to) pair against peer/requester
(the first and third disjuncts of the source are identical and both
kept); the public branch matches non-private messages of the room. -/
def queryFilter (isPrivate : Bool) (room : String) (peer requester : Option String)
    (m : Message) : Bool :=
  if isPrivate then
    match peer with
    | none => false
    | some p =>
      if p = "" then false
      else m.isPrivate &&
        ((m.sender == p && jsStrEqOpt m.toUser requester) ||
         (jsStrEqSO m.sender requester && jsStrEqOpt m.toUser (some p)) ||
         (m.sender == p && jsStrEqOpt m.toUser requester))
  else !m.isPrivate && m.room == room

/-- Insert a message into a list sorted by ascending timestamp, after
all entries with a timestamp less than or equal to its own. -/
def insertByTs (m : Message) : List Message → List Message
  | [] => [m]
  | x :: xs => if m.timestamp < x.timestamp then m :: x :: xs else x :: insertByTs m xs

/-- The stable ascending sort `filtered.sort((a,b) => ...)` on
timestamps. -/
def sortByTimestamp (l : List Message) : List Message :=
  l.foldl (fun acc m => insertByTs m acc) []

/-- Array.prototype.slice(start, end): a negative index counts from the
end of the array; the extracted range is [start, end). -/
def jsSlice {α : Type} (l : List α) (s e : Int) : List α :=
  let len : Int := l.length
  let s2 := if s < 0 then max (len + s) 0 else min s len
  let e2 := if e < 0 then max (len + e) 0 else min e len
  (l.take e2.toNat).drop s2.toNat

/-- The GET /messages endpoint: filter, sort ascending by timestamp,
then slice out page `page` counted from the newest end.  `max 1`
mirrors Math.max(1, parseInt(...)). -/
def getMessages (msgs : List Message) (room : String) (page limit : Nat)
    (isPrivate : Bool) (peer requester : Option String) : List Message × Nat :=
  let pageNum : Int := max 1 (page : Int)
  let lim : Int := max 1 (limit : Int)
  let filtered := msgs.filter (queryFilter isPrivate room peer requester)
  let sorted := sortByTimestamp filtered
  let start : Int := max 0 ((sorted.length : Int) - pageNum * lim)
  let stop : Int := (sorted.length : Int) - (pageNum - 1) * lim
  (jsSlice sorted start stop, sorted.length)

/-- The room name an emission targets, if it is a whole-room broadcast. -/
def emitRoomTarget (e : Emit) : Option String :=
  match e with
  | Emit.toRoom r _ => some r
  | _ => none

/-- The socket an emission targets, if it is a single-socket delivery. -/
def emitSocketTarget (e : Emit) : Option Nat :=
  match e with
  | Emit.toSocket s _ => some s
  | _ => none

/-- The keys of the users table are pairwise distinct, as the keys of a
JavaScript object are. -/
def keysNodup {α : Type} (l : List (Nat × α)) : Prop := (l.map Prod.fst).Nodup

theorem jsGet_jsSet_self {α : Type} (l : List (Nat × α)) (k : Nat) (v : α) :
    jsGet (jsSet l k v) k = some v := by
  induction l with
  | nil => simp [jsSet, jsGet]
  | cons p ps ih =>
    by_cases h : p.1 = k
    · simp [jsSet, h, jsGet]
    · simp [jsSet, h, jsGet, ih]

theorem jsGet_jsSet_ne {α : Type} (l : List (Nat × α)) (k k2 : Nat) (v : α)
    (h : k2 ≠ k) : jsGet (jsSet l k v) k2 = jsGet l k2 := by
  have hk : ¬ k = k2 := fun hh => h hh.symm
  induction l with
  | nil => simp [jsSet, jsGet, hk]
  | cons p ps ih =>
    by_cases hp : p.1 = k
    · have hpk2 : ¬ p.1 = k2 := by rw [hp]; exact hk
      simp [jsSet, jsGet, hp, hk, hpk2]
    · by_cases hp2 : p.1 = k2
      · simp [jsSet, jsGet, hp, hp2, h]
      · simp [jsSet, jsGet, hp, hp2, ih]

theorem jsGet_jsDel_ne {α : Type} (l : List (Nat × α)) (k k2 : Nat)
    (h : k2 ≠ k) : jsGet (jsDel l k) k2 = jsGet l k2 := by
  have hk : ¬ k = k2 := fun hh => h hh.symm
  induction l with
  | nil => simp [jsDel, jsGet]
  | cons p ps ih =>
    by_cases hp : p.1 = k
    · have hpk2 : ¬ p.1 = k2 := by rw [hp]; exact hk
      simp [jsDel, jsGet, hp, hpk2, hk]
    · by_cases hp2 : p.1 = k2
      · simp [jsDel, jsGet, hp, hp2, h]
      · simp [jsDel, jsGet, hp, hp2, ih]

theorem jsGet_eq_none_of_not_mem_keys {α : Type} (l : List (Nat × α)) (k : Nat)
    (h : k ∉ l.map Prod.fst) : jsGet l k = none := by
  induction l with
  | nil => simp [jsGet]
  | cons p ps ih =>
    simp only [List.map_cons, List.mem_cons] at h
    push_neg at h
    have h1 : ¬ p.1 = k := fun hh => h.1 hh.symm
    simp [jsGet, h1, ih h.2]

theorem jsGet_jsDel_self {α : Type} (l : List (Nat × α)) (k : Nat)
    (h : keysNodup l) : jsGet (jsDel l k) k = none := by
  induction l with
  | nil => simp [jsDel, jsGet]
  | cons p ps ih =>
    simp only [keysNodup, List.map_cons, List.nodup_cons] at h
    by_cases hp : p.1 = k
    · have : k ∉ ps.map Prod.fst := hp ▸ h.1
      simpa [jsDel, hp] using jsGet_eq_none_of_not_mem_keys ps k this
    · simp [jsDel, jsGet, hp, ih h.2]

theorem keys_jsDel_sublist {α : Type} (l : List (Nat × α)) (k : Nat) :
    ((jsDel l k).map Prod.fst).Sublist (l.map Prod.fst) := by
  induction l with
  | nil => simp [jsDel]
  | cons p ps ih =>
    by_cases hp : p.1 = k
    · simp only [jsDel, if_pos hp, List.map_cons]
      exact List.Sublist.cons _ (List.Sublist.refl _)
    · simp only [jsDel, if_neg hp, List.map_cons]
      exact ih.cons₂ _

theorem keysNodup_jsDel {α : Type} (l : List (Nat × α)) (k : Nat)
    (h : keysNodup l) : keysNodup (jsDel l k) :=
  List.Nodup.sublist (keys_jsDel_sublist l k) h

theorem keys_jsSet {α : Type} (l : List (Nat × α)) (k : Nat) (v : α) :
    (jsSet l k v).map Prod.fst = if k ∈ l.map Prod.fst then l.map Prod.fst
      else l.map Prod.fst ++ [k] := by
  induction l with
  | nil => simp [jsSet]
  | cons p ps ih =>
    by_cases hp : p.1 = k
    · simp [jsSet, hp]
    · have h1 : ¬ k = p.1 := fun hh => hp hh.symm
      by_cases hm : k ∈ ps.map Prod.fst
      · simp [jsSet, hp, ih, h1, hm]
      · simp [jsSet, hp, ih, h1, hm]

theorem keysNodup_jsSet {α : Type} (l : List (Nat × α)) (k : Nat) (v : α)
    (h : keysNodup l) : keysNodup (jsSet l k v) := by
  unfold keysNodup
  rw [keys_jsSet]
  by_cases hm : k ∈ l.map Prod.fst
  · simpa [hm] using h
  · simp only [hm, if_false]
    rw [List.nodup_append]
    refine ⟨h, List.nodup_singleton k, ?_⟩
    intro a ha hb
    simp only [List.mem_singleton] at hb
    exact hm (hb ▸ ha)

theorem mem_jsSet {α : Type} (l : List (Nat × α)) (k : Nat) (v : α) (q : Nat × α)
    (h : q ∈ jsSet l k v) : q ∈ l ∨ q = (k, v) := by
  induction l with
  | nil => simpa [jsSet] using h
  | cons p ps ih =>
    by_cases hp : p.1 = k
    · simp only [jsSet, if_pos hp, List.mem_cons] at h
      rcases h with h | h
      · exact Or.inr h
      · exact Or.inl (List.mem_cons_of_mem _ h)
    · simp only [jsSet, if_neg hp, List.mem_cons] at h
      rcases h with h | h
      · exact Or.inl (h ▸ List.mem_cons_self _ _)
      · rcases ih h with h | h
        · exact Or.inl (List.mem_cons_of_mem _ h)
        · exact Or.inr h

theorem mem_jsDel {α : Type} (l : List (Nat × α)) (k : Nat) (q : Nat × α)
    (h : q ∈ jsDel l k) : q ∈ l := by
  induction l with
  | nil => simpa [jsDel] using h
  | cons p ps ih =>
    by_cases hp : p.1 = k
    · simp only [jsDel, if_pos hp] at h
      exact List.mem_cons_of_mem _ h
    · simp only [jsDel, if_neg hp, List.mem_cons] at h
      rcases h with h | h
      · exact h ▸ List.mem_cons_self _ _
      · exact List.mem_cons_of_mem _ (ih h)

theorem mem_iff_jsGet {α : Type} (l : List (Nat × α)) (k : Nat) (v : α)
    (h : keysNodup l) : (k, v) ∈ l ↔ jsGet l k = some v := by
  induction l with
  | nil => simp [jsGet]
  | cons p ps ih =>
    simp only [keysNodup, List.map_cons, List.nodup_cons] at h
    by_cases hp : p.1 = k
    · simp only [jsGet, if_pos hp, List.mem_cons, Option.some.injEq]
      constructor
      · rintro (h1 | h1)
        · exact (congrArg Prod.snd h1).symm
        · exact absurd (hp ▸ List.mem_map_of_mem Prod.fst h1) h.1
      · intro h1
        left
        have : p = (p.1, p.2) := rfl
        rw [this, hp, h1]
    · simp only [jsGet, if_neg hp, List.mem_cons]
      rw [ih h.2]
      constructor
      · rintro (h1 | h1)
        · exact absurd (congrArg Prod.fst h1).symm hp
        · exact h1
      · exact Or.inr

theorem join_users (st : ServerState) (sid : Nat) (u r : String) :
    (joinHandler st sid u r).1.users =
      if u = "" then st.users else jsSet st.users sid ⟨u, r⟩ := by
  by_cases h : u = "" <;> simp [joinHandler, h]

theorem joinRoom_users (st : ServerState) (sid : Nat) (r : String) :
    (joinRoomHandler st sid r).1.users =
      match jsGet st.users sid with
      | none => st.users
      | some u => jsSet st.users sid { u with room := r } := by
  cases h : jsGet st.users sid <;> simp [joinRoomHandler, h]

theorem sendMessage_users (st : ServerState) (sid : Nat) (t f : Option String)
    (p : Bool) (tg : Option String) (i ts : Nat) :
    (sendMessageHandler st sid t f p tg i ts).1.users = st.users := by
  cases h : jsGet st.users sid <;> simp [sendMessageHandler, h]

theorem react_exec_users (st : ServerState) (sid mid : Nat) (r : String) :
    (execServerOp st (ServerOp.react sid mid r)).users = st.users := by
  cases h1 : st.messages.find? (fun m => m.id == mid) <;>
    cases h2 : jsGet st.users sid <;>
      simp [execServerOp, reactHandler, h1, h2]

theorem readMessage_users (st : ServerState) (sid mid : Nat) :
    (readMessageHandler st sid mid).1.users = st.users := by
  cases h1 : st.messages.find? (fun m => m.id == mid) <;>
    simp [readMessageHandler, h1]

theorem disconnect_users (st : ServerState) (sid : Nat) :
    (disconnectHandler st sid).1.users =
      match jsGet st.users sid with
      | none => st.users
      | some _ => jsDel st.users sid := by
  cases h : jsGet st.users sid <;> simp [disconnectHandler, h]

/-- Key uniqueness of the users table, inherent to a JavaScript object. -/
def usersOk (st : ServerState) : Prop := keysNodup st.users

theorem usersOk_exec (st : ServerState) (op : ServerOp) (h : usersOk st) :
    usersOk (execServerOp st op) := by
  cases op with
  | join sid u r =>
    show keysNodup (joinHandler st sid u r).1.users
    rw [join_users]
    by_cases hu : u = ""
    · simpa [hu] using h
    · simpa [hu] using keysNodup_jsSet st.users sid ⟨u, r⟩ h
  | joinRoom sid r =>
    show keysNodup (joinRoomHandler st sid r).1.users
    rw [joinRoom_users]
    cases hg : jsGet st.users sid
    · exact h
    · exact keysNodup_jsSet _ _ _ h
  | sendMessage sid t f p tg i ts =>
    show keysNodup (sendMessageHandler st sid t f p tg i ts).1.users
    rw [sendMessage_users]; exact h
  | typing sid a b c => exact h
  | react sid mid r =>
    show keysNodup (execServerOp st (ServerOp.react sid mid r)).users
    rw [react_exec_users]; exact h
  | readMessage sid mid =>
    show keysNodup (readMessageHandler st sid mid).1.users
    rw [readMessage_users]; exact h
  | disconnect sid =>
    show keysNodup (disconnectHandler st sid).1.users
    rw [disconnect_users]
    cases hg : jsGet st.users sid
    · exact h
    · exact keysNodup_jsDel _ _ h

/-- The session that a trace of operations leaves for one connection,
read off the specification's wording: the most recent successful join
fixes username and room, each later successful joinRoom updates the
room, and a disconnect removes the session. -/
def traceStep (acc : Option Session) (sid : Nat) : ServerOp → Option Session
  | ServerOp.join s u r => if s = sid then (if u = "" then acc else some ⟨u, r⟩) else acc
  | ServerOp.joinRoom s r =>
    if s = sid then
      match acc with
      | some sess => some { sess with room := r }
      | none => none
    else acc
  | ServerOp.disconnect s => if s = sid then none else acc
  | _ => acc

/-- Fold of `traceStep` over a whole trace, starting with no session. -/
def traceSession (ops : List ServerOp) (sid : Nat) : Option Session :=
  ops.foldl (fun acc op => traceStep acc sid op) none

theorem jsGet_execServerOp (st : ServerState) (op : ServerOp) (sid : Nat)
    (h : usersOk st) :
    jsGet (execServerOp st op).users sid = traceStep (jsGet st.users sid) sid op := by
  cases op with
  | join s u r =>
    show jsGet (joinHandler st s u r).1.users sid = _
    rw [join_users]
    by_cases hu : u = ""
    · simp [hu, traceStep]
    · by_cases hs : s = sid
      · subst hs; simp [hu, traceStep, jsGet_jsSet_self]
      · simp [hu, traceStep, hs, jsGet_jsSet_ne _ _ _ _ (fun hh => hs hh.symm)]
  | joinRoom s r =>
    show jsGet (joinRoomHandler st s r).1.users sid = _
    rw [joinRoom_users]
    cases hg : jsGet st.users s with
    | none =>
      by_cases hs : s = sid
      · subst hs; simp [traceStep, hg]
      · simp [traceStep, hs]
    | some u =>
      by_cases hs : s = sid
      · subst hs; simp [traceStep, hg, jsGet_jsSet_self]
      · simp [traceStep, hs, jsGet_jsSet_ne _ _ _ _ (fun hh => hs hh.symm)]
  | sendMessage s t f p tg i ts =>
    show jsGet (sendMessageHandler st s t f p tg i ts).1.users sid = _
    rw [sendMessage_users]; rfl
  | typing s a b c => rfl
  | react s mid r =>
    rw [show (execServerOp st (ServerOp.react s mid r)).users = st.users from
      react_exec_users st s mid r]
    rfl
  | readMessage s mid =>
    show jsGet (readMessageHandler st s mid).1.users sid = _
    rw [readMessage_users]; rfl
  | disconnect s =>
    show jsGet (disconnectHandler st s).1.users sid = _
    rw [disconnect_users]
    cases hg : jsGet st.users s with
    | none =>
      by_cases hs : s = sid
      · subst hs; simp [traceStep, hg]
      · simp [traceStep, hs]
    | some u =>
      by_cases hs : s = sid
      · subst hs; simp [traceStep, jsGet_jsDel_self _ _ h]
      · simp [traceStep, hs, jsGet_jsDel_ne _ _ _ (fun hh => hs hh.symm)]

theorem jsGet_foldl_exec (ops : List ServerOp) :
    ∀ st : ServerState, usersOk st → ∀ sid : Nat,
      jsGet (List.foldl execServerOp st ops).users sid =
        List.foldl (fun acc op => traceStep acc sid op) (jsGet st.users sid) ops := by
  induction ops with
  | nil => intro st h sid; rfl
  | cons op ops ih =>
    intro st h sid
    rw [List.foldl_cons, List.foldl_cons, ih _ (usersOk_exec st op h),
      jsGet_execServerOp st op sid h]

theorem usersOk_initial : usersOk initialState := by
  simp [usersOk, keysNodup, initialState]

theorem usersOk_execOps (ops : List ServerOp) : usersOk (execOps ops) := by
  rw [execOps]
  induction ops using List.reverseRecOn with
  | nil => exact usersOk_initial
  | append_singleton ops op ih =>
    rw [List.foldl_append]
    exact usersOk_exec _ op ih

theorem jsGet_execOps (ops : List ServerOp) (sid : Nat) :
    jsGet (execOps ops).users sid = traceSession ops sid := by
  rw [execOps, jsGet_foldl_exec ops initialState usersOk_initial sid]
  rfl

/-- C7: after any trace of operations, onlineUsersInRoom(r) contains
exactly the sessions whose last successful join/joinRoom targeted r and
whose connection has not since disconnected; and a second disconnect of
the same connection changes nothing. -/
theorem c7_listInRoom (ops : List ServerOp) (r : String) (s : Session) :
    (s ∈ onlineUsersInRoom (execOps ops) r ↔
      ∃ sid : Nat, traceSession ops sid = some s ∧ s.room = r) ∧
    ∀ sid : Nat,
      execServerOp (execOps (ops ++ [ServerOp.disconnect sid])) (ServerOp.disconnect sid) =
        execOps (ops ++ [ServerOp.disconnect sid]) := by
  constructor
  · unfold onlineUsersInRoom
    rw [List.mem_filter]
    constructor
    · rintro ⟨hm, hr⟩
      rw [List.mem_map] at hm
      obtain ⟨p, hp, hps⟩ := hm
      refine ⟨p.1, ?_, by simpa using hr⟩
      rw [← jsGet_execOps, ← mem_iff_jsGet _ _ _ (usersOk_execOps ops)]
      have hps2 : (p.1, s) = p := by rw [← hps]
      exact hps2 ▸ hp
    · rintro ⟨sid, hsid, hr⟩
      have h1 : jsGet (execOps ops).users sid = some s := by
        rw [jsGet_execOps]; exact hsid
      have h2 : (sid, s) ∈ (execOps ops).users :=
        (mem_iff_jsGet _ _ _ (usersOk_execOps ops)).2 h1
      exact ⟨List.mem_map.2 ⟨(sid, s), h2, rfl⟩, by simpa using hr⟩
  · intro sid
    have hnone : jsGet (execOps (ops ++ [ServerOp.disconnect sid])).users sid = none := by
      rw [jsGet_execOps, traceSession, List.foldl_append]
      simp [traceStep]
    show (disconnectHandler _ sid).1 = _
    simp [disconnectHandler, hnone]

theorem mem_updateFirst {α : Type} (p : α → Bool) (f : α → α) (l : List α) (x : α)
    (h : x ∈ updateFirst p f l) : x ∈ l ∨ ∃ y ∈ l, x = f y := by
  induction l with
  | nil => simpa [updateFirst] using h
  | cons a as ih =>
    by_cases hp : p a
    · simp only [updateFirst, if_pos hp, List.mem_cons] at h
      rcases h with h | h
      · exact Or.inr ⟨a, List.mem_cons_self _ _, h⟩
      · exact Or.inl (List.mem_cons_of_mem _ h)
    · simp only [updateFirst, if_neg hp, List.mem_cons] at h
      rcases h with h | h
      · exact Or.inl (h ▸ List.mem_cons_self _ _)
      · rcases ih h with h1 | ⟨y, hy, hxy⟩
        · exact Or.inl (List.mem_cons_of_mem _ h1)
        · exact Or.inr ⟨y, List.mem_cons_of_mem _ hy, hxy⟩

theorem deliveredTo_exec (st : ServerState) (op : ServerOp)
    (h : ∀ m ∈ st.messages, m.deliveredTo = []) :
    ∀ m ∈ (execServerOp st op).messages, m.deliveredTo = [] := by
  cases op with
  | join sid u r =>
    intro m hm
    refine h m ?_
    have he : (execServerOp st (ServerOp.join sid u r)).messages = st.messages := by
      show (joinHandler st sid u r).1.messages = st.messages
      by_cases hu : u = "" <;> simp [joinHandler, hu]
    rwa [he] at hm
  | joinRoom sid r =>
    intro m hm
    refine h m ?_
    have he : (execServerOp st (ServerOp.joinRoom sid r)).messages = st.messages := by
      show (joinRoomHandler st sid r).1.messages = st.messages
      cases hg : jsGet st.users sid <;> simp [joinRoomHandler, hg]
    rwa [he] at hm
  | typing sid a b c => exact h
  | disconnect sid =>
    intro m hm
    refine h m ?_
    have he : (execServerOp st (ServerOp.disconnect sid)).messages = st.messages := by
      show (disconnectHandler st sid).1.messages = st.messages
      cases hg : jsGet st.users sid <;> simp [disconnectHandler, hg]
    rwa [he] at hm
  | sendMessage sid t f p tg i ts =>
    intro m hm
    cases hg : jsGet st.users sid with
    | none =>
      have he : (execServerOp st (ServerOp.sendMessage sid t f p tg i ts)).messages
          = st.messages := by
        show (sendMessageHandler st sid t f p tg i ts).1.messages = st.messages
        simp [sendMessageHandler, hg]
      exact h m (he ▸ hm)
    | some u =>
      have he := hm
      simp only [execServerOp, sendMessageHandler, hg, List.mem_append,
        List.mem_singleton] at he
      rcases he with he | he
      · exact h m he
      · rw [he]
  | react sid mid r =>
    intro m hm
    cases h1 : st.messages.find? (fun mm => mm.id == mid) with
    | none =>
      simp only [execServerOp, reactHandler, h1] at hm
      exact h m hm
    | some msg =>
      cases h2 : jsGet st.users sid with
      | none =>
        simp only [execServerOp, reactHandler, h1, h2] at hm
        exact h m hm
      | some u =>
        simp only [execServerOp, reactHandler, h1, h2] at hm
        rcases mem_updateFirst _ _ _ _ hm with hmem | ⟨y, hy, hxy⟩
        · exact h m hmem
        · rw [hxy]; exact h y hy
  | readMessage sid mid =>
    intro m hm
    cases h1 : st.messages.find? (fun mm => mm.id == mid) with
    | none =>
      simp only [execServerOp, readMessageHandler, h1] at hm
      exact h m hm
    | some msg =>
      simp only [execServerOp, readMessageHandler, h1] at hm
      rcases mem_updateFirst _ _ _ _ hm with hmem | ⟨y, hy, hxy⟩
      · exact h m hmem
      · rw [hxy]
        cases h2 : jsGet st.users sid with
        | none => simp [h2]; exact h y hy
        | some u =>
          by_cases hu : u.username = ""
          · simp [h2, hu]; exact h y hy
          · by_cases hr : u.username ∈ y.readBy
            · simp [h2, hu, hr]; exact h y hy
            · simp [h2, hu, hr]; exact h y hy

/-- C9: every stored message's deliveredTo set is empty after any trace
of operations; nothing ever records a delivery. -/
theorem c9_deliveredTo_empty (ops : List ServerOp) :
    ∀ m ∈ (execOps ops).messages, m.deliveredTo = [] := by
  rw [execOps]
  induction ops using List.reverseRecOn with
  | nil => intro m hm; simp [initialState] at hm
  | append_singleton ops op ih =>
    rw [List.foldl_append]
    exact deliveredTo_exec _ op ih

/-- C8: reacting to or marking read a message id absent from the store
fails with the NotFoundError acknowledgment and leaves the whole state
untouched. -/
theorem c8_notFound (st : ServerState) (sid mid : Nat) (reaction : String)
    (h : ∀ m ∈ st.messages, m.id ≠ mid) :
    reactHandler st sid mid reaction =
      Except.ok (st, Ack.error "Message not found", []) ∧
    readMessageHandler st sid mid = (st, Ack.error "Message not found", []) := by
  have hf : st.messages.find? (fun m => m.id == mid) = none := by
    rw [List.find?_eq_none]
    intro m hm
    simpa using h m hm
  exact ⟨by simp [reactHandler, hf], by simp [readMessageHandler, hf]⟩

theorem c8_notFound_witness :
    reactHandler initialState 0 3 "like" =
      Except.ok (initialState, Ack.error "Message not found", []) ∧
    readMessageHandler initialState 0 3 = (initialState, Ack.error "Message not found", []) :=
  c8_notFound initialState 0 3 "like" (by intro m hm; simp [initialState] at hm)

theorem mem_insertByTs (m x : Message) (l : List Message)
    (h : x ∈ insertByTs m l) : x = m ∨ x ∈ l := by
  induction l with
  | nil => simpa [insertByTs] using h
  | cons a as ih =>
    simp only [insertByTs] at h
    by_cases hc : m.timestamp < a.timestamp
    · rw [if_pos hc] at h
      exact List.mem_cons.1 h
    · rw [if_neg hc] at h
      rcases List.mem_cons.1 h with h1 | h1
      · exact Or.inr (h1 ▸ List.mem_cons_self _ _)
      · rcases ih h1 with h2 | h2
        · exact Or.inl h2
        · exact Or.inr (List.mem_cons_of_mem _ h2)

theorem mem_sort_aux (l : List Message) :
    ∀ (acc : List Message) (x : Message),
      x ∈ l.foldl (fun acc m => insertByTs m acc) acc → x ∈ acc ∨ x ∈ l := by
  induction l with
  | nil => intro acc x h; exact Or.inl h
  | cons a as ih =>
    intro acc x h
    rw [List.foldl_cons] at h
    rcases ih _ x h with h1 | h1
    · rcases mem_insertByTs a x acc h1 with h2 | h2
      · exact Or.inr (h2 ▸ List.mem_cons_self _ _)
      · exact Or.inl h2
    · exact Or.inr (List.mem_cons_of_mem _ h1)

theorem mem_sortByTimestamp (l : List Message) (x : Message)
    (h : x ∈ sortByTimestamp l) : x ∈ l := by
  rcases mem_sort_aux l [] x h with h1 | h1
  · simp at h1
  · exact h1

theorem mem_jsSlice {α : Type} (l : List α) (s e : Int) (x : α)
    (h : x ∈ jsSlice l s e) : x ∈ l := by
  simp only [jsSlice] at h
  exact List.mem_of_mem_take (List.mem_of_mem_drop h)

theorem queryFilter_of_mem_getMessages (msgs : List Message) (room : String)
    (page limit : Nat) (priv : Bool) (peer req : Option String) (x : Message)
    (h : x ∈ (getMessages msgs room page limit priv peer req).1) :
    queryFilter priv room peer req x = true := by
  simp only [getMessages] at h
  exact (List.mem_filter.1 (mem_sortByTimestamp _ _ (mem_jsSlice _ _ _ _ h))).2

theorem queryFilter_false_of_noRecipient (m : Message)
    (h1 : m.isPrivate = true) (h2 : m.toUser = none) (priv : Bool)
    (room : String) (peer req : Option String) :
    queryFilter priv room peer req m = false := by
  cases priv with
  | false => simp [queryFilter, h1]
  | true =>
    cases peer with
    | none => simp [queryFilter]
    | some p =>
      by_cases hp : p = ""
      · simp [queryFilter, hp]
      · simp [queryFilter, hp, h2, jsStrEqOpt]

/-- C10: a send with isPrivate true but no recipient stores an
isPrivate message, broadcasts it as an ordinary public receiveMessage
to the sender's room, and the stored record matches no history filter,
so it never appears in any page of any history query. -/
theorem c10_private_no_recipient (st : ServerState) (sid : Nat)
    (t f : Option String) (i ts : Nat) (u : Session)
    (h : jsGet st.users sid = some u) :
    ∃ msg : Message,
      (sendMessageHandler st sid t f true none i ts).1.messages = st.messages ++ [msg] ∧
      msg.isPrivate = true ∧
      (sendMessageHandler st sid t f true none i ts).2.2 =
        [Emit.toRoom u.room (Event.receiveMessage msg)] ∧
      ∀ (msgs : List Message) (room : String) (page limit : Nat) (priv : Bool)
        (peer req : Option String),
        msg ∉ (getMessages msgs room page limit priv peer req).1 := by
  refine ⟨⟨i, t.getD "", jsOrNull f, u.username, ts, u.room, true, none, [], [], []⟩,
    ?_, rfl, ?_, ?_⟩
  · simp [sendMessageHandler, h, jsOrNull]
  · simp [sendMessageHandler, h, jsOrNull]
  · intro msgs room page limit priv peer req hmem
    have hq := queryFilter_of_mem_getMessages msgs room page limit priv peer req _ hmem
    rw [queryFilter_false_of_noRecipient _ rfl rfl priv room peer req] at hq
    exact Bool.false_ne_true hq

theorem sendMessage_private_red (st : ServerState) (sid : Nat)
    (t f : Option String) (b : String) (i ts : Nat) (u : Session)
    (h : jsGet st.users sid = some u) (hb : b ≠ "") :
    sendMessageHandler st sid t f true (some b) i ts =
      ({ st with messages := st.messages ++
          [⟨i, t.getD "", jsOrNull f, u.username, ts, u.room, true, some b, [], [], []⟩] },
       Ack.delivered i,
       (st.users.filter (fun p => p.2.username == b)).map
         (fun p => Emit.toSocket p.1 (Event.privateMessage
           ⟨i, t.getD "", jsOrNull f, u.username, ts, u.room, true, some b, [], [], []⟩))
         ++ [Emit.toSocket sid (Event.privateMessage
           ⟨i, t.getD "", jsOrNull f, u.username, ts, u.room, true, some b, [], [], []⟩)]) := by
  simp [sendMessageHandler, h, jsOrNull, hb]

/-- C1 (amended): a private send with a non-empty recipient name is
delivered to every connection whose session carries the recipient's
username, plus the sender's originating connection only — the sender's
other connections receive nothing — and to no other socket. -/
theorem c1_private_delivery (st : ServerState) (sid : Nat)
    (t f : Option String) (b : String) (i ts : Nat) (u : Session)
    (h : jsGet st.users sid = some u) (hb : b ≠ "") :
    ∃ msg : Message,
      (sendMessageHandler st sid t f true (some b) i ts).1.messages = st.messages ++ [msg] ∧
      msg.isPrivate = true ∧ msg.toUser = some b ∧
      (∀ e ∈ (sendMessageHandler st sid t f true (some b) i ts).2.2,
        ∃ s : Nat, e = Emit.toSocket s (Event.privateMessage msg)) ∧
      ∀ s : Nat,
        ((∃ ev : Event,
            Emit.toSocket s ev ∈ (sendMessageHandler st sid t f true (some b) i ts).2.2) ↔
          ((∃ sess : Session, (s, sess) ∈ st.users ∧ sess.username = b) ∨ s = sid)) := by
  rw [sendMessage_private_red st sid t f b i ts u h hb]
  refine ⟨⟨i, t.getD "", jsOrNull f, u.username, ts, u.room, true, some b, [], [], []⟩,
    rfl, rfl, rfl, ?_, ?_⟩
  · intro e he
    rcases List.mem_append.1 he with he | he
    · rcases List.mem_map.1 he with ⟨p, _, hpe⟩
      exact ⟨p.1, hpe.symm⟩
    · exact ⟨sid, (List.mem_singleton.1 he)⟩
  · intro s
    constructor
    · rintro ⟨ev, hev⟩
      rcases List.mem_append.1 hev with hev | hev
      · rcases List.mem_map.1 hev with ⟨p, hp, hpe⟩
        have hs : p.1 = s := (Emit.toSocket.inj hpe).1
        have hpf := List.mem_filter.1 hp
        refine Or.inl ⟨p.2, ?_, by simpa using hpf.2⟩
        have hps : (s, p.2) = p := by rw [← hs]
        exact hps ▸ hpf.1
      · exact Or.inr (Emit.toSocket.inj (List.mem_singleton.1 hev)).1
    · intro hcase
      rcases hcase with ⟨sess, hmem, huser⟩ | hs
      · exact ⟨Event.privateMessage _, List.mem_append.2 (Or.inl (List.mem_map.2
          ⟨(s, sess), List.mem_filter.2 ⟨hmem, by simpa using huser⟩, rfl⟩))⟩
      · subst hs
        exact ⟨Event.privateMessage
            ⟨i, t.getD "", jsOrNull f, u.username, ts, u.room, true, some b, [], [], []⟩,
          List.mem_append.2 (Or.inr (List.mem_singleton_self _))⟩

theorem sendMessage_rooms (st : ServerState) (sid : Nat) (t f : Option String)
    (p : Bool) (tg : Option String) (i ts : Nat) :
    (sendMessageHandler st sid t f p tg i ts).1.rooms = st.rooms := by
  cases h : jsGet st.users sid <;> simp [sendMessageHandler, h]

theorem react_exec_rooms (st : ServerState) (sid mid : Nat) (r : String) :
    (execServerOp st (ServerOp.react sid mid r)).rooms = st.rooms := by
  cases h1 : st.messages.find? (fun m => m.id == mid) <;>
    cases h2 : jsGet st.users sid <;>
      simp [execServerOp, reactHandler, h1, h2]

theorem readMessage_rooms (st : ServerState) (sid mid : Nat) :
    (readMessageHandler st sid mid).1.rooms = st.rooms := by
  cases h1 : st.messages.find? (fun m => m.id == mid) <;>
    simp [readMessageHandler, h1]

theorem disconnect_rooms (st : ServerState) (sid : Nat) :
    (disconnectHandler st sid).1.rooms = st.rooms := by
  cases h : jsGet st.users sid <;> simp [disconnectHandler, h]

/-- Is the operation a joinRoom event? -/
def isJoinRoomOp : ServerOp → Bool
  | ServerOp.joinRoom _ _ => true
  | _ => false

theorem roomsInv_exec (st : ServerState) (op : ServerOp)
    (hop : isJoinRoomOp op = false)
    (h : ∀ p ∈ st.users, p.2.room ∈ st.rooms) :
    ∀ p ∈ (execServerOp st op).users, p.2.room ∈ (execServerOp st op).rooms := by
  cases op with
  | join sid u r =>
    intro p hp
    by_cases hu : u = ""
    · simp only [execServerOp, joinHandler, if_pos hu] at hp ⊢
      exact h p hp
    · simp only [execServerOp, joinHandler, if_neg hu] at hp ⊢
      rcases mem_jsSet _ _ _ _ hp with hmem | heq
      · have hold := h p hmem
        by_cases hc : st.rooms.contains r = true
        · rw [if_pos hc]; exact hold
        · rw [if_neg hc]; exact List.mem_append_left _ hold
      · rw [heq]
        show (⟨u, r⟩ : Session).room ∈ _
        by_cases hc : st.rooms.contains r = true
        · rw [if_pos hc]
          simpa using hc
        · rw [if_neg hc]
          exact List.mem_append_right _ (List.mem_singleton_self _)
  | joinRoom sid r => simp [isJoinRoomOp] at hop
  | sendMessage sid t f pb tg i ts =>
    intro p hp
    have hu : (execServerOp st (ServerOp.sendMessage sid t f pb tg i ts)).users = st.users :=
      sendMessage_users st sid t f pb tg i ts
    have hr : (execServerOp st (ServerOp.sendMessage sid t f pb tg i ts)).rooms = st.rooms :=
      sendMessage_rooms st sid t f pb tg i ts
    rw [hr]
    exact h p (hu ▸ hp)
  | typing sid a b c => exact h
  | react sid mid r =>
    intro p hp
    rw [react_exec_rooms]
    exact h p (react_exec_users st sid mid r ▸ hp)
  | readMessage sid mid =>
    intro p hp
    have hu : (execServerOp st (ServerOp.readMessage sid mid)).users = st.users :=
      readMessage_users st sid mid
    have hr : (execServerOp st (ServerOp.readMessage sid mid)).rooms = st.rooms :=
      readMessage_rooms st sid mid
    rw [hr]
    exact h p (hu ▸ hp)
  | disconnect sid =>
    intro p hp
    have hr : (execServerOp st (ServerOp.disconnect sid)).rooms = st.rooms :=
      disconnect_rooms st sid
    rw [hr]
    rw [show (execServerOp st (ServerOp.disconnect sid)).users
      = (disconnectHandler st sid).1.users from rfl, disconnect_users] at hp
    cases hg : jsGet st.users sid with
    | none => rw [hg] at hp; exact h p hp
    | some u => rw [hg] at hp; exact h p (mem_jsDel _ _ _ hp)

/-- C4 (amended): over traces that never use joinRoom, every live
session's room is registered in the Room Directory; joinRoom does not
register new rooms, so it can break this invariant. -/
theorem c4_roomDirectory (ops : List ServerOp)
    (h : ∀ op ∈ ops, isJoinRoomOp op = false) :
    ∀ p ∈ (execOps ops).users, p.2.room ∈ (execOps ops).rooms := by
  induction ops using List.reverseRecOn with
  | nil => intro p hp; simp [execOps, initialState] at hp
  | append_singleton ops op ih =>
    have h1 : ∀ o ∈ ops, isJoinRoomOp o = false :=
      fun o ho => h o (List.mem_append_left _ ho)
    have h2 : isJoinRoomOp op = false :=
      h op (List.mem_append_right _ (List.mem_singleton_self _))
    have hstep := roomsInv_exec (execOps ops) op h2 (ih h1)
    intro p hp
    rw [execOps, List.foldl_append] at hp ⊢
    exact hstep p hp

/-- C6 (amended): join fails with the ValidationError acknowledgment
and changes nothing exactly when the username is the empty string
(whitespace-only usernames are accepted); on a non-empty username it
creates or replaces the unique session of this connection, leaves every
other connection's session unchanged, keeps one session per connection,
and acknowledges ok. -/
theorem c6_join_validation (st : ServerState) (sid : Nat) (username room : String) :
    (username = "" →
      joinHandler st sid username room = (st, Ack.error "Username required", [])) ∧
    (username ≠ "" →
      (joinHandler st sid username room).2.1 = Ack.ok ∧
      jsGet (joinHandler st sid username room).1.users sid = some ⟨username, room⟩ ∧
      (∀ k : Nat, k ≠ sid →
        jsGet (joinHandler st sid username room).1.users k = jsGet st.users k) ∧
      (usersOk st → usersOk (joinHandler st sid username room).1)) := by
  constructor
  · intro hu
    simp [joinHandler, hu]
  · intro hu
    refine ⟨by simp [joinHandler, hu], ?_, ?_, ?_⟩
    · rw [join_users, if_neg hu]
      exact jsGet_jsSet_self _ _ _
    · intro k hk
      rw [join_users, if_neg hu]
      exact jsGet_jsSet_ne _ _ _ _ hk
    · intro hok
      show keysNodup (joinHandler st sid username room).1.users
      rw [join_users, if_neg hu]
      exact keysNodup_jsSet _ _ _ hok

/-- alice with two live connections and bob with one, all in global. -/
def demoTwoDevices : ServerState :=
  { users := [(1, ⟨"alice", "global"⟩), (2, ⟨"alice", "global"⟩), (3, ⟨"bob", "global"⟩)],
    messages := [], rooms := ["global"] }

/-- C1 (counterexample): alice sends bob a private message from her
connection 1; it reaches bob's connection 3 and her own connection 1,
but not her other device, connection 2 — refuting delivery to all of
the sender's connections. -/
theorem c1_counterexample :
    ((sendMessageHandler demoTwoDevices 1 (some "hi") none true (some "bob") 100 0).2.2.map
      emitSocketTarget = [some 3, some 1]) ∧
    some 2 ∉ (sendMessageHandler demoTwoDevices 1 (some "hi") none true (some "bob") 100 0).2.2.map
      emitSocketTarget := by
  constructor
  · rfl
  · rw [show (sendMessageHandler demoTwoDevices 1 (some "hi") none true (some "bob") 100 0).2.2.map
      emitSocketTarget = [some 3, some 1] from rfl]
    decide

/-- alice and one session:  used to witness C1's amended statement. -/
def demoPair : ServerState :=
  { users := [(1, ⟨"alice", "global"⟩), (3, ⟨"bob", "global"⟩)],
    messages := [], rooms := ["global"] }

theorem c1_private_delivery_witness :
    ∃ msg : Message,
      (sendMessageHandler demoPair 1 (some "hi") none true (some "bob") 7 0).1.messages =
        demoPair.messages ++ [msg] ∧
      msg.isPrivate = true ∧ msg.toUser = some "bob" ∧
      (∀ e ∈ (sendMessageHandler demoPair 1 (some "hi") none true (some "bob") 7 0).2.2,
        ∃ s : Nat, e = Emit.toSocket s (Event.privateMessage msg)) ∧
      ∀ s : Nat,
        ((∃ ev : Event,
            Emit.toSocket s ev ∈ (sendMessageHandler demoPair 1 (some "hi") none true (some "bob") 7 0).2.2) ↔
          ((∃ sess : Session, (s, sess) ∈ demoPair.users ∧ sess.username = "bob") ∨ s = 1)) :=
  c1_private_delivery demoPair 1 (some "hi") none "bob" 7 0 ⟨"alice", "global"⟩ rfl (by decide)

/-- A stored public message with id 5 while no socket has joined. -/
def demoMsg : Message :=
  { id := 5, text := "x", file := none, sender := "alice", timestamp := 0,
    room := "global", isPrivate := false, toUser := none, reactions := [],
    readBy := [], deliveredTo := [] }

/-- A state with one stored message and no sessions at all. -/
def demoUnjoined : ServerState :=
  { users := [], messages := [demoMsg], rooms := ["global"] }

/-- C2 (refutation): on a connection that never joined, readMessage of
an existing id acknowledges ok (not NotJoinedError) and still
broadcasts a readUpdate, while react of an existing id throws a
TypeError instead of returning any acknowledgment. -/
theorem c2_unjoined_not_rejected :
    (readMessageHandler demoUnjoined 9 5).2.1 = Ack.ok ∧
    (readMessageHandler demoUnjoined 9 5).1 = demoUnjoined ∧
    (readMessageHandler demoUnjoined 9 5).2.2 =
      [Emit.toRoom "global" (Event.readUpdate demoMsg)] ∧
    reactHandler demoUnjoined 9 5 "like" = Except.error () :=
  ⟨rfl, rfl, rfl, rfl⟩

/-- alice on connection 1 and bob on connection 2, both in room a. -/
def demoOldRoom : ServerState :=
  { users := [(1, ⟨"alice", "a"⟩), (2, ⟨"bob", "a"⟩)], messages := [], rooms := ["global"] }

/-- C3 (refutation): when alice switches from room a to room b, all
three emitted events — both presence broadcasts and the notification —
target room b; no event at all targets the old room a, so bob, still in
a, receives no presence update. -/
theorem c3_oldRoom_not_notified :
    ((joinRoomHandler demoOldRoom 1 "b").2.2.map emitRoomTarget =
      [some "b", some "b", some "b"]) ∧
    some "a" ∉ (joinRoomHandler demoOldRoom 1 "b").2.2.map emitRoomTarget := by
  constructor
  · rfl
  · rw [show (joinRoomHandler demoOldRoom 1 "b").2.2.map emitRoomTarget =
      [some "b", some "b", some "b"] from rfl]
    decide

/-- C4 (counterexample): join into global then joinRoom into dev leaves
a live session whose room dev is absent from the Room Directory. -/
theorem c4_counterexample :
    jsGet (execOps [ServerOp.join 1 "u" "global", ServerOp.joinRoom 1 "dev"]).users 1 =
      some ⟨"u", "dev"⟩ ∧
    "dev" ∉ (execOps [ServerOp.join 1 "u" "global", ServerOp.joinRoom 1 "dev"]).rooms := by
  constructor
  · rfl
  · rw [show (execOps [ServerOp.join 1 "u" "global", ServerOp.joinRoom 1 "dev"]).rooms =
      ["global"] from rfl]
    decide

theorem c4_roomDirectory_witness :
    ("global" : String) ∈ (execOps [ServerOp.join 1 "u" "global"]).rooms :=
  c4_roomDirectory [ServerOp.join 1 "u" "global"]
    (by intro op hop; rw [List.mem_singleton.1 hop]; rfl)
    (1, ⟨"u", "global"⟩)
    (by rw [show (execOps [ServerOp.join 1 "u" "global"]).users =
      [(1, ⟨"u", "global"⟩)] from rfl]; exact List.mem_singleton_self _)

/-- Builder for a store of public messages in room global with
increasing timestamps. -/
def mkDemoMsg (i : Nat) : Message :=
  { id := i, text := "", file := none, sender := "u", timestamp := i,
    room := "global", isPrivate := false, toUser := none, reactions := [],
    readBy := [], deliveredTo := [] }

def demoMsgs45 : List Message := (List.range 45).map mkDemoMsg

/-- C5: with 45 messages and pageSize 20, pages 1 and 3 behave as the
specification's scenario says, but page 4 — where the already-covered
pages exceed the total — returns 30 already-served messages instead of
an empty page, because the slice end index becomes negative and counts
from the end of the array. -/
theorem c5_pagination_slice :
    ((getMessages demoMsgs45 "global" 1 20 false none none).1 = demoMsgs45.drop 25) ∧
    ((getMessages demoMsgs45 "global" 3 20 false none none).1 = demoMsgs45.take 5) ∧
    ((getMessages demoMsgs45 "global" 4 20 false none none).2 = 45) ∧
    ((getMessages demoMsgs45 "global" 4 20 false none none).1.length = 30) :=
  ⟨rfl, rfl, rfl, rfl⟩

/-- C6 (counterexample): a whitespace-only username is accepted — the
join acknowledges ok and a session is created — refuting the claim that
it fails with ValidationError. -/
theorem c6_counterexample :
    (joinHandler initialState 1 " " "global").2.1 = Ack.ok ∧
    jsGet (joinHandler initialState 1 " " "global").1.users 1 = some ⟨" ", "global"⟩ :=
  ⟨rfl, rfl⟩

theorem c6_join_validation_witness :
    joinHandler initialState 2 "" "global" = (initialState, Ack.error "Username required", []) ∧
    (joinHandler initialState 2 "alice" "global").2.1 = Ack.ok :=
  ⟨(c6_join_validation initialState 2 "" "global").1 rfl,
    ((c6_join_validation initialState 2 "alice" "global").2 (by decide)).1⟩

/-- One joined user who then sends one public message. -/
def demoOps : List ServerOp :=
  [ServerOp.join 1 "alice" "global",
   ServerOp.sendMessage 1 (some "hi") none false none 7 3]

def demoSent : Message :=
  { id := 7, text := "hi", file := none, sender := "alice", timestamp := 3,
    room := "global", isPrivate := false, toUser := none, reactions := [],
    readBy := [], deliveredTo := [] }

theorem c9_deliveredTo_empty_witness :
    demoSent ∈ (execOps demoOps).messages ∧ demoSent.deliveredTo = [] :=
  ⟨by rw [show (execOps demoOps).messages = [demoSent] from rfl]
      exact List.mem_singleton_self _,
   c9_deliveredTo_empty demoOps demoSent
     (by rw [show (execOps demoOps).messages = [demoSent] from rfl]
         exact List.mem_singleton_self _)⟩

theorem c10_private_no_recipient_witness :
    ∃ msg : Message,
      (sendMessageHandler demoPair 1 (some "psst") none true none 9 4).1.messages =
        demoPair.messages ++ [msg] ∧
      msg.isPrivate = true ∧
      (sendMessageHandler demoPair 1 (some "psst") none true none 9 4).2.2 =
        [Emit.toRoom "global" (Event.receiveMessage msg)] ∧
      ∀ (msgs : List Message) (room : String) (page limit : Nat) (priv : Bool)
        (peer req : Option String),
        msg ∉ (getMessages msgs room page limit priv peer req).1 :=
  c10_private_no_recipient demoPair 1 (some "psst") none 9 4 ⟨"alice", "global"⟩ rfl
